import Mathlib

/-!
Verification development for the dad-bd travel/photo web application.

The TypeScript sources are shallowly embedded in Lean:

* pure functions become Lean functions over explicit data (machine numbers
  become `ℚ`/`Int`/`Nat`; JavaScript strings become `String` with small
  ASCII-level models of `toUpperCase`, `toLowerCase`, `trim`, `endsWith`;
  JSON-encoded descriptor strings are represented by the decoded payload,
  with `Option` capturing an absent or unparsable encoding);
* asynchronous storage reads/writes become explicit state passing over a
  `StorageWorld`, with a `FailureEnv` injecting the possible exceptions of
  the underlying client library;
* the external face-api matcher (not part of this repository) is modelled
  from the specification of its calling contract: euclidean nearest-label
  matching under a fixed acceptance threshold.  Distances are compared via
  their squares (the square root is strictly monotone on nonnegatives, so
  threshold and argmin decisions are unchanged) and the reported distance
  of a match is the real square root of the stored square.
-/

/-! ## ASCII-level models of the JavaScript string operations used -/

/-- Uppercase one character, ASCII model of JavaScript `toUpperCase`. -/
def upperChar (c : Char) : Char :=
  if 97 ≤ c.toNat ∧ c.toNat ≤ 122 then Char.ofNat (c.toNat - 32) else c

/-- Lowercase one character, ASCII model of JavaScript `toLowerCase`. -/
def lowerChar (c : Char) : Char :=
  if 65 ≤ c.toNat ∧ c.toNat ≤ 90 then Char.ofNat (c.toNat + 32) else c

/-- Model of JavaScript `String.prototype.toUpperCase`. -/
def jsToUpper (s : String) : String := ⟨s.data.map upperChar⟩

/-- Model of JavaScript `String.prototype.toLowerCase`. -/
def jsToLower (s : String) : String := ⟨s.data.map lowerChar⟩

/-- Whitespace test for the `trim` model (space, tab, newline, carriage return). -/
def isWsChar (c : Char) : Bool :=
  c.toNat == 32 || c.toNat == 9 || c.toNat == 10 || c.toNat == 13

/-- Model of JavaScript `String.prototype.trim`. -/
def jsTrim (s : String) : String :=
  ⟨((s.data.dropWhile isWsChar).reverse.dropWhile isWsChar).reverse⟩

/-- Model of JavaScript `String.prototype.endsWith`. -/
def jsEndsWith (s suffix : String) : Bool := suffix.data.isSuffixOf s.data

/-! ## A stable insertion sort, the model of the (stable) JavaScript
`Array.prototype.sort` used with total-preorder comparators -/

def orderedInsertBy {α : Type} (le : α → α → Bool) (a : α) : List α → List α
  | [] => [a]
  | b :: l => if le a b then a :: b :: l else b :: orderedInsertBy le a l

def insertionSortBy {α : Type} (le : α → α → Bool) : List α → List α
  | [] => []
  | a :: l => orderedInsertBy le a (insertionSortBy le l)

theorem perm_orderedInsertBy {α : Type} (le : α → α → Bool) (a : α) (l : List α) :
    (orderedInsertBy le a l).Perm (a :: l) := by
  induction l with
  | nil => exact List.Perm.refl _
  | cons b t ih =>
    simp only [orderedInsertBy]
    split
    · exact List.Perm.refl _
    · exact (ih.cons b).trans (List.Perm.swap a b t)

theorem perm_insertionSortBy {α : Type} (le : α → α → Bool) (l : List α) :
    (insertionSortBy le l).Perm l := by
  induction l with
  | nil => exact List.Perm.refl _
  | cons a t ih =>
    simp only [insertionSortBy]
    exact (perm_orderedInsertBy le a (insertionSortBy le t)).trans (ih.cons a)

theorem mem_insertionSortBy {α : Type} (le : α → α → Bool) {l : List α} {x : α} :
    x ∈ insertionSortBy le l ↔ x ∈ l :=
  (perm_insertionSortBy le l).mem_iff

theorem length_insertionSortBy {α : Type} (le : α → α → Bool) (l : List α) :
    (insertionSortBy le l).length = l.length :=
  (perm_insertionSortBy le l).length_eq

/-- Lexicographic comparison on code points; stands in for the
total preorder induced by `localeCompare` in the sorts below (the claims
checked here depend only on the sort being a stable permutation). -/
def lexLe : List Char → List Char → Bool
  | [], _ => true
  | _ :: _, [] => false
  | a :: as, b :: bs =>
    if a.toNat < b.toNat then true
    else if b.toNat < a.toNat then false
    else lexLe as bs

def strLe (a b : String) : Bool := lexLe a.data b.data

/-! ## Trips data model (src/types/trips.ts) -/

structure ProfileData where
  title : String
  subtitle : String
deriving DecidableEq

structure TripData where
  countryName : String
  iso2 : String
  continent : String
  year : String
  cities : List String
  notes : String
  photos : List String
  isHome : Option Bool
deriving DecidableEq

structure TripsJson where
  profile : ProfileData
  homeCountry : Option String
  visited : List TripData
deriving DecidableEq

/-- normalizeIso2 from src/types/trips.ts: trim then upper-case
(the `v || ''` guard is the identity on strings). -/
def normalizeIso2 (v : String) : String := jsToUpper (jsTrim v)

structure CountryInfo where
  name : String
  iso2 : String
  continent : String
deriving DecidableEq

/-- ALL_COUNTRIES from src/types/trips.ts. -/
def ALL_COUNTRIES : List CountryInfo :=
  [ ⟨"Afghanistan", "AF", "Asia"⟩
  , ⟨"Albania", "AL", "Europe"⟩
  , ⟨"Algeria", "DZ", "Africa"⟩
  , ⟨"Andorra", "AD", "Europe"⟩
  , ⟨"Angola", "AO", "Africa"⟩
  , ⟨"Argentina", "AR", "South America"⟩
  , ⟨"Armenia", "AM", "Asia"⟩
  , ⟨"Australia", "AU", "Oceania"⟩
  , ⟨"Austria", "AT", "Europe"⟩
  , ⟨"Azerbaijan", "AZ", "Asia"⟩
  , ⟨"Belgium", "BE", "Europe"⟩
  , ⟨"Brazil", "BR", "South America"⟩
  , ⟨"Canada", "CA", "North America"⟩
  , ⟨"China", "CN", "Asia"⟩
  , ⟨"Colombia", "CO", "South America"⟩
  , ⟨"Czechia", "CZ", "Europe"⟩
  , ⟨"Denmark", "DK", "Europe"⟩
  , ⟨"Ecuador", "EC", "South America"⟩
  , ⟨"Estonia", "EE", "Europe"⟩
  , ⟨"Ethiopia", "ET", "Africa"⟩
  , ⟨"Finland", "FI", "Europe"⟩
  , ⟨"France", "FR", "Europe"⟩
  , ⟨"Georgia", "GE", "Asia"⟩
  , ⟨"Germany", "DE", "Europe"⟩
  , ⟨"Hong Kong", "HK", "Asia"⟩
  , ⟨"Hungary", "HU", "Europe"⟩
  , ⟨"India", "IN", "Asia"⟩
  , ⟨"Indonesia", "ID", "Asia"⟩
  , ⟨"Israel", "IL", "Asia"⟩
  , ⟨"Italy", "IT", "Europe"⟩
  , ⟨"Jordan", "JO", "Asia"⟩
  , ⟨"Kazakhstan", "KZ", "Asia"⟩
  , ⟨"Kyrgyzstan", "KG", "Asia"⟩
  , ⟨"Malaysia", "MY", "Asia"⟩
  , ⟨"Mexico", "MX", "North America"⟩
  , ⟨"Nigeria", "NG", "Africa"⟩
  , ⟨"Norway", "NO", "Europe"⟩
  , ⟨"Paraguay", "PY", "South America"⟩
  , ⟨"Poland", "PL", "Europe"⟩
  , ⟨"Portugal", "PT", "Europe"⟩
  , ⟨"Romania", "RO", "Europe"⟩
  , ⟨"Russia", "RU", "Europe"⟩
  , ⟨"Singapore", "SG", "Asia"⟩
  , ⟨"South Africa", "ZA", "Africa"⟩
  , ⟨"Spain", "ES", "Europe"⟩
  , ⟨"Sweden", "SE", "Europe"⟩
  , ⟨"Thailand", "TH", "Asia"⟩
  , ⟨"Turkey", "TR", "Europe"⟩
  , ⟨"Turkmenistan", "TM", "Asia"⟩
  , ⟨"Ukraine", "UA", "Europe"⟩
  , ⟨"United Arab Emirates", "AE", "Asia"⟩
  , ⟨"United Kingdom", "GB", "Europe"⟩
  , ⟨"United States", "US", "North America"⟩
  , ⟨"Uruguay", "UY", "South America"⟩
  , ⟨"Uzbekistan", "UZ", "Asia"⟩ ]

/-- addCountry from src/types/trips.ts (the pure state transformation applied
by `setData`; the `!data` early return is the precondition of having loaded
state, made explicit here by passing `data`). -/
def addCountry (data : TripsJson) (iso2 : String) : TripsJson :=
  let n := normalizeIso2 iso2
  if n = "" then data
  else if data.visited.any (fun t => normalizeIso2 t.iso2 == n) then data
  else
    match ALL_COUNTRIES.find? (fun c => c.iso2 == n) with
    | none => data
    | some info =>
      { data with
        visited := insertionSortBy (fun a b => strLe a.countryName b.countryName)
          (data.visited ++
            [{ countryName := info.name
             , iso2 := info.iso2
             , continent := info.continent
             , year := ""
             , cities := []
             , notes := ""
             , photos := []
             , isHome := none }]) }

/-- Model of JavaScript `Math.round` on an exact rational. -/
def jsRound (q : ℚ) : ℤ := ⌊q + 1/2⌋

def TOTAL_COUNTRIES_IN_WORLD : ℚ := 195

structure TravelStats where
  countriesVisited : Nat
  worldPercentage : ℤ
  mostVisitedContinent : String
  continentCounts : List (String × Nat)
deriving DecidableEq

/-- One step of the continent tally; a JavaScript object keyed by continent is
modelled as an association list in first-assignment key order. -/
def bumpCount (acc : List (String × Nat)) (key : String) : List (String × Nat) :=
  if acc.any (fun e => e.1 == key)
  then acc.map (fun e => if e.1 == key then (e.1, e.2 + 1) else e)
  else acc ++ [(key, 1)]

/-- getTravelStats from src/types/trips.ts. -/
def getTravelStats (visited : List TripData) : TravelStats :=
  let continentCounts := visited.foldl (fun acc t => bumpCount acc t.continent) []
  let sorted := insertionSortBy (fun a b => Nat.ble b.2 a.2) continentCounts
  let mostVisitedContinent :=
    match sorted.head? with
    | some e => if e.1 = "" then "N/A" else e.1
    | none => "N/A"
  { countriesVisited := visited.length
  , worldPercentage := jsRound (((visited.length : ℚ) / TOTAL_COUNTRIES_IN_WORLD) * 100)
  , mostVisitedContinent := mostVisitedContinent
  , continentCounts := continentCounts }

/-! ## Claim C5: addCountry duplicate suppression and single insertion -/

/-- Claim C5: adding a country whose normalized code is already visited leaves
the state unchanged; adding a fresh normalized code that appears in
ALL_COUNTRIES inserts exactly one new trip entry with empty year, cities,
notes and photos, so the visited list grows by exactly one element. -/
theorem addCountry_duplicate_and_insert (data : TripsJson) (code : String) :
    ((∃ t ∈ data.visited, normalizeIso2 t.iso2 = normalizeIso2 code) →
      addCountry data code = data)
    ∧ (∀ info : CountryInfo, normalizeIso2 code ≠ "" →
        (∀ t ∈ data.visited, normalizeIso2 t.iso2 ≠ normalizeIso2 code) →
        ALL_COUNTRIES.find? (fun c => c.iso2 == normalizeIso2 code) = some info →
        ((addCountry data code).visited.Perm
            (data.visited ++ [⟨info.name, info.iso2, info.continent, "", [], "", [], none⟩])
          ∧ (addCountry data code).visited.length = data.visited.length + 1)) := by
  constructor
  · rintro ⟨t, ht, he⟩
    by_cases hn : normalizeIso2 code = ""
    · simp [addCountry, hn]
    · have hany : data.visited.any (fun t => normalizeIso2 t.iso2 == normalizeIso2 code) = true := by
        rw [List.any_eq_true]
        exact ⟨t, ht, by simpa using he⟩
      simp [addCountry, hn, hany]
  · intro info hn hnot hfind
    have hany : data.visited.any (fun t => normalizeIso2 t.iso2 == normalizeIso2 code) = false := by
      rw [List.any_eq_false]
      intro t ht
      simpa using hnot t ht
    have hres : (addCountry data code).visited
        = insertionSortBy (fun a b => strLe a.countryName b.countryName)
            (data.visited ++ [⟨info.name, info.iso2, info.continent, "", [], "", [], none⟩]) := by
      simp only [addCountry, if_neg hn, hany, Bool.false_eq_true, if_false, hfind]
    rw [hres]
    refine ⟨perm_insertionSortBy _ _, ?_⟩
    rw [length_insertionSortBy, List.length_append, List.length_singleton]

def tripsW : TripsJson := ⟨⟨"Travel map", "hello"⟩, none, []⟩

/-- Witness for C5 at a concrete input: adding France to an empty visited
list inserts exactly one entry. -/
theorem addCountry_duplicate_and_insert_witness :
    (addCountry tripsW ("fr")).visited.Perm
        (tripsW.visited ++ [⟨"France", "FR", "Europe", "", [], "", [], none⟩])
      ∧ (addCountry tripsW ("fr")).visited.length = tripsW.visited.length + 1 :=
  (addCountry_duplicate_and_insert tripsW ("fr")).2 ⟨"France", "FR", "Europe"⟩
    (by decide) (by decide) (by decide)

/-! ## Claim C9: world percentage statistic -/

/-- Claim C9: getTravelStats computes worldPercentage as
round(100 * visitedCount / 195) with the denominator fixed at 195, and for
exactly 10 visited countries the result is 5. -/
theorem getTravelStats_worldPercentage_formula (visited : List TripData) :
    (getTravelStats visited).worldPercentage
        = jsRound (((visited.length : ℚ) / 195) * 100)
    ∧ (visited.length = 10 → (getTravelStats visited).worldPercentage = 5) := by
  have hform : (getTravelStats visited).worldPercentage
      = jsRound (((visited.length : ℚ) / 195) * 100) := rfl
  refine ⟨hform, fun h => ?_⟩
  rw [hform, h]
  norm_num [jsRound]

def tripOf (nm : String) (code : String) (cont : String) : TripData :=
  ⟨nm, code, cont, "", [], "", [], none⟩

def tenTrips : List TripData :=
  [ tripOf ("France") ("FR") ("Europe")
  , tripOf ("Spain") ("ES") ("Europe")
  , tripOf ("Italy") ("IT") ("Europe")
  , tripOf ("Poland") ("PL") ("Europe")
  , tripOf ("Norway") ("NO") ("Europe")
  , tripOf ("Japan") ("JP") ("Asia")
  , tripOf ("China") ("CN") ("Asia")
  , tripOf ("India") ("IN") ("Asia")
  , tripOf ("Brazil") ("BR") ("South America")
  , tripOf ("Canada") ("CA") ("North America") ]

/-- Witness for C9: with exactly 10 visited countries the world percentage
is 5. -/
theorem getTravelStats_worldPercentage_formula_witness :
    (getTravelStats tenTrips).worldPercentage = 5 :=
  (getTravelStats_worldPercentage_formula tenTrips).2 (by decide)

/-! ## Photo data model (src/lib/storage.ts) -/

structure Box where
  x : ℚ
  y : ℚ
  width : ℚ
  height : ℚ
deriving DecidableEq

structure FaceTag where
  memberId : String
  memberName : String
  box : Box
  confidence : Option ℚ
deriving DecidableEq

/-- DetectedFaceData from src/lib/storage.ts.  The JSON-encoded 128-number
descriptor string is represented by its decoded payload; `none` stands for an
absent or unparsable encoding. -/
structure DetectedFaceData where
  id : String
  thumbnail : String
  box : Box
  descriptorString : Option (List ℚ)
  assignedMemberId : Option String
  assignedMemberName : Option String
  suggestedMemberId : Option String
  suggestedMemberName : Option String
  confidence : Option ℚ
deriving DecidableEq

structure StoredPhoto where
  id : String
  countryIso : String
  url : String
  name : String
  caption : String
  faceTags : List FaceTag
  detectedFaces : Option (List DetectedFaceData)
  createdAt : Int
deriving DecidableEq

/-! ## Claim C3: photo-preview aggregation (usePhotoPreviews in
src/types/trips.ts) -/

structure PreviewEntry where
  url : String
  createdAt : Int
  count : Nat
deriving DecidableEq

/-- The in-memory `byIso` record is modelled as a function from ISO code to
optional entry. -/
def PreviewState : Type := String → Option PreviewEntry

/-- One iteration of the loop inside rebuildFromPhotos: note the strict
comparison `p.createdAt > current.createdAt` when deciding whether the new
photo becomes the preview image. -/
def previewStep (acc : PreviewState) (p : StoredPhoto) : PreviewState :=
  let iso := normalizeIso2 p.countryIso
  if iso = "" then acc
  else
    let entry : PreviewEntry :=
      match acc iso with
      | none => ⟨p.url, p.createdAt, 1⟩
      | some current =>
        if p.createdAt > current.createdAt
        then ⟨p.url, p.createdAt, current.count + 1⟩
        else ⟨current.url, current.createdAt, current.count + 1⟩
    fun k => if k = iso then some entry else acc k

/-- rebuildFromPhotos from src/types/trips.ts: full rebuild of the preview
state from the flat photo list. -/
def rebuildFromPhotos (photos : List StoredPhoto) : PreviewState :=
  photos.foldl previewStep (fun _ => none)

/-- registerPhoto from src/types/trips.ts: incremental update on upload; note
the non-strict comparison `photo.createdAt >= current.createdAt`. -/
def registerPhoto (prev : PreviewState) (photo : StoredPhoto) : PreviewState :=
  let iso := normalizeIso2 photo.countryIso
  if iso = "" then prev
  else
    let nextEntry : PreviewEntry :=
      match prev iso with
      | none => ⟨photo.url, photo.createdAt, 1⟩
      | some current =>
        if photo.createdAt ≥ current.createdAt
        then ⟨photo.url, photo.createdAt, current.count + 1⟩
        else ⟨current.url, current.createdAt, current.count + 1⟩
    fun k => if k = iso then some nextEntry else prev k

theorem rebuildFromPhotos_append_one (ps : List StoredPhoto) (p : StoredPhoto) :
    rebuildFromPhotos (ps ++ [p]) = previewStep (rebuildFromPhotos ps) p := by
  simp [rebuildFromPhotos, List.foldl_append]

/-- Pointwise comparison of one incremental step with one rebuild step from
the same state: the counts always agree, keys other than the photo's agree,
and the entries agree whenever the timestamps are not exactly tied. -/
theorem previewStep_registerPhoto_compare (st : PreviewState) (p : StoredPhoto) :
    (∀ k, (previewStep st p k).map (fun e => e.count)
        = (registerPhoto st p k).map (fun e => e.count))
    ∧ (∀ k, k ≠ normalizeIso2 p.countryIso → previewStep st p k = registerPhoto st p k)
    ∧ ((∀ cur, st (normalizeIso2 p.countryIso) = some cur → p.createdAt ≠ cur.createdAt) →
        ∀ k, previewStep st p k = registerPhoto st p k) := by
  by_cases hiso : normalizeIso2 p.countryIso = ""
  · refine ⟨fun k => ?_, fun k _ => ?_, fun _ k => ?_⟩ <;> simp [previewStep, registerPhoto, hiso]
  · refine ⟨fun k => ?_, fun k hk => ?_, fun htie k => ?_⟩
    · by_cases hk : k = normalizeIso2 p.countryIso
      · subst hk
        simp only [previewStep, registerPhoto, if_neg hiso, if_pos rfl]
        cases hcur : st (normalizeIso2 p.countryIso) with
        | none => simp
        | some cur =>
          by_cases hgt : p.createdAt > cur.createdAt
          · have hge : p.createdAt ≥ cur.createdAt := le_of_lt hgt
            simp [hgt, hge]
          · by_cases hge : p.createdAt ≥ cur.createdAt
            · simp [hgt, hge]
            · simp [hgt, hge]
      · simp [previewStep, registerPhoto, hiso, hk]
    · simp [previewStep, registerPhoto, hiso, hk]
    · by_cases hk : k = normalizeIso2 p.countryIso
      · subst hk
        simp only [previewStep, registerPhoto, if_neg hiso, if_pos rfl]
        cases hcur : st (normalizeIso2 p.countryIso) with
        | none => simp
        | some cur =>
          have hne : p.createdAt ≠ cur.createdAt := htie cur hcur
          by_cases hgt : p.createdAt > cur.createdAt
          · have hge : p.createdAt ≥ cur.createdAt := le_of_lt hgt
            simp [hgt, hge]
          · have hge : ¬ p.createdAt ≥ cur.createdAt := fun h =>
              hgt (lt_of_le_of_ne h (Ne.symm hne))
            simp [hgt, hge]
      · simp [previewStep, registerPhoto, hiso, hk]

/-- Claim C3 (amended): for every photo list and new photo, the incremental
registerPhoto applied to the rebuilt state agrees with the full rebuild on
per-country photo counts, and on the whole entry (preview URL included)
whenever the new photo's timestamp is not exactly tied with the stored
entry's; the count for the photo's normalized country increases by exactly
one. -/
theorem registerPhoto_refines_rebuild (ps : List StoredPhoto) (p : StoredPhoto) :
    (∀ k, ((rebuildFromPhotos (ps ++ [p])) k).map (fun e => e.count)
        = ((registerPhoto (rebuildFromPhotos ps) p) k).map (fun e => e.count))
    ∧ (normalizeIso2 p.countryIso ≠ "" →
        ((registerPhoto (rebuildFromPhotos ps) p) (normalizeIso2 p.countryIso)).map
            (fun e => e.count)
          = some (((rebuildFromPhotos ps (normalizeIso2 p.countryIso)).map
              (fun e => e.count)).getD 0 + 1))
    ∧ ((∀ cur, rebuildFromPhotos ps (normalizeIso2 p.countryIso) = some cur →
          p.createdAt ≠ cur.createdAt) →
        ∀ k, rebuildFromPhotos (ps ++ [p]) k = registerPhoto (rebuildFromPhotos ps) p k) := by
  have hcomp := previewStep_registerPhoto_compare (rebuildFromPhotos ps) p
  refine ⟨fun k => ?_, fun hiso => ?_, fun htie k => ?_⟩
  · rw [rebuildFromPhotos_append_one]
    exact hcomp.1 k
  · simp only [registerPhoto, if_neg hiso, if_pos rfl]
    cases hcur : rebuildFromPhotos ps (normalizeIso2 p.countryIso) with
    | none => simp
    | some cur =>
      by_cases hge : p.createdAt ≥ cur.createdAt <;> simp [hge]
  · rw [rebuildFromPhotos_append_one]
    exact hcomp.2.2 htie k

def photoA : StoredPhoto :=
  ⟨"pA", "US", "a", "a.jpg", "", [], none, 5⟩

def photoB : StoredPhoto :=
  ⟨"pB", "US", "b", "b.jpg", "", [], none, 5⟩

def photoC : StoredPhoto :=
  ⟨"pC", "US", "c", "c.jpg", "", [], none, 7⟩

/-- Counterexample to C3 as stated: with an exact timestamp tie, the full
rebuild keeps the earlier photo's URL while the incremental update takes the
new photo's URL, so the preview URLs differ. -/
theorem registerPhoto_rebuild_tie_counterexample :
    ((rebuildFromPhotos [photoA, photoB]) ("US")).map (fun e => e.url) = some ("a")
    ∧ ((registerPhoto (rebuildFromPhotos [photoA]) photoB) ("US")).map (fun e => e.url)
        = some ("b")
    ∧ (rebuildFromPhotos [photoA, photoB]) ("US")
        ≠ (registerPhoto (rebuildFromPhotos [photoA]) photoB) ("US") := by
  refine ⟨by decide, by decide, by decide⟩

/-- Witness for C3 (amended) at a concrete input: a strictly newer photo gives
identical states for the incremental update and the full rebuild. -/
theorem registerPhoto_refines_rebuild_witness :
    rebuildFromPhotos [photoA, photoC] ("US")
      = registerPhoto (rebuildFromPhotos [photoA]) photoC ("US") :=
  (registerPhoto_refines_rebuild [photoA] photoC).2.2
    (fun cur hcur => by
      have : cur = (⟨"a", 5, 1⟩ : PreviewEntry) := by
        have hev : rebuildFromPhotos [photoA] (normalizeIso2 photoC.countryIso)
            = some ⟨"a", 5, 1⟩ := by decide
        rw [hev] at hcur
        exact (Option.some.inj hcur).symm
      rw [this]
      decide) ("US")

/-! ## Claim C4: recursive Firestore sanitization (src/lib/storage.ts) -/

/-- A JavaScript value as seen by sanitizeForFirestore: the `undefined`
sentinel, `null`, primitives, arrays and plain objects (an object is an
association list of string keys in insertion order). -/
inductive JsValue where
  | undef : JsValue
  | null : JsValue
  | boolean (b : Bool) : JsValue
  | number (q : ℚ) : JsValue
  | str (s : String) : JsValue
  | arr (elems : List JsValue) : JsValue
  | obj (fields : List (String × JsValue)) : JsValue

/-- The `value !== undefined` test of the source. -/
def JsValue.isUndef : JsValue → Bool
  | .undef => true
  | _ => false

mutual
/-- sanitizeForFirestore from src/lib/storage.ts.  Arrays map the sanitizer
over their elements and drop resulting undefined entries; objects sanitize
each value and drop keys whose sanitized value is undefined; everything else
(undefined and null included, both falsy) is returned unchanged. -/
def sanitizeForFirestore : JsValue → JsValue
  | .undef => .undef
  | .null => .null
  | .boolean b => .boolean b
  | .number q => .number q
  | .str s => .str s
  | .arr xs => .arr (sanitizeList xs)
  | .obj fs => .obj (sanitizeFields fs)

/-- The `value.map(sanitizeForFirestore).filter(v => v !== undefined)` of the
array branch, with map and filter fused into one pass. -/
def sanitizeList : List JsValue → List JsValue
  | [] => []
  | x :: rest =>
    let n := sanitizeForFirestore x
    if n.isUndef then sanitizeList rest else n :: sanitizeList rest

/-- The `Object.entries` loop of the object branch. -/
def sanitizeFields : List (String × JsValue) → List (String × JsValue)
  | [] => []
  | (k, v) :: rest =>
    let n := sanitizeForFirestore v
    if n.isUndef then sanitizeFields rest else (k, n) :: sanitizeFields rest
end

mutual
/-- No undefined occurs anywhere inside the value. -/
def noUndef : JsValue → Bool
  | .undef => false
  | .null => true
  | .boolean _ => true
  | .number _ => true
  | .str _ => true
  | .arr xs => noUndefList xs
  | .obj fs => noUndefFields fs

def noUndefList : List JsValue → Bool
  | [] => true
  | x :: rest => noUndef x && noUndefList rest

def noUndefFields : List (String × JsValue) → Bool
  | [] => true
  | kv :: rest => noUndef kv.2 && noUndefFields rest
end

theorem isUndef_eq_true_iff (v : JsValue) : v.isUndef = true ↔ v = JsValue.undef := by
  cases v <;> simp [JsValue.isUndef]

theorem sanitize_of_isUndef {v : JsValue} (h : v.isUndef = true) :
    sanitizeForFirestore v = JsValue.undef := by
  rw [isUndef_eq_true_iff] at h
  subst h
  rfl

theorem noUndefList_sanitizeList (xs : List JsValue)
    (h : ∀ x ∈ xs, x.isUndef = false → noUndef (sanitizeForFirestore x) = true) :
    noUndefList (sanitizeList xs) = true := by
  induction xs with
  | nil => rfl
  | cons x rest ih =>
    have ihr : noUndefList (sanitizeList rest) = true :=
      ih (fun y hy => h y (List.mem_cons_of_mem x hy))
    by_cases hx : (sanitizeForFirestore x).isUndef = true
    · simpa [sanitizeList, hx] using ihr
    · have hxf : (sanitizeForFirestore x).isUndef = false := by
        simpa using hx
      have hxund : x.isUndef = false := by
        by_contra hc
        have : x.isUndef = true := by simpa using hc
        rw [sanitize_of_isUndef this] at hxf
        simp [JsValue.isUndef] at hxf
      have hone : noUndef (sanitizeForFirestore x) = true :=
        h x (List.mem_cons_self x rest) hxund
      simp [sanitizeList, hxf, noUndefList, hone, ihr]

theorem noUndefFields_sanitizeFields (fs : List (String × JsValue))
    (h : ∀ kv ∈ fs, (kv.2 : JsValue).isUndef = false →
      noUndef (sanitizeForFirestore kv.2) = true) :
    noUndefFields (sanitizeFields fs) = true := by
  induction fs with
  | nil => rfl
  | cons kv rest ih =>
    have ihr : noUndefFields (sanitizeFields rest) = true :=
      ih (fun y hy => h y (List.mem_cons_of_mem kv hy))
    by_cases hx : (sanitizeForFirestore kv.2).isUndef = true
    · obtain ⟨k, v⟩ := kv
      simpa [sanitizeFields, hx] using ihr
    · have hxf : (sanitizeForFirestore kv.2).isUndef = false := by
        simpa using hx
      have hxund : (kv.2 : JsValue).isUndef = false := by
        by_contra hc
        have : (kv.2 : JsValue).isUndef = true := by simpa using hc
        rw [sanitize_of_isUndef this] at hxf
        simp [JsValue.isUndef] at hxf
      have hone : noUndef (sanitizeForFirestore kv.2) = true :=
        h kv (List.mem_cons_self kv rest) hxund
      obtain ⟨k, v⟩ := kv
      simp [sanitizeFields, hxf, noUndefFields, hone, ihr]

theorem noUndef_sanitize_aux :
    ∀ (n : Nat) (v : JsValue), sizeOf v ≤ n → v.isUndef = false →
      noUndef (sanitizeForFirestore v) = true := by
  intro n
  induction n with
  | zero =>
    intro v hv _
    exfalso
    cases v <;> simp_all
  | succ n ih =>
    intro v hv hund
    cases v with
    | undef => simp [JsValue.isUndef] at hund
    | null => rfl
    | boolean b => rfl
    | number q => rfl
    | str s => rfl
    | arr xs =>
      show noUndefList (sanitizeList xs) = true
      apply noUndefList_sanitizeList
      intro x hx hxund
      have h1 := List.sizeOf_lt_of_mem hx
      have h2 : sizeOf (JsValue.arr xs) = 1 + sizeOf xs := by simp
      apply ih x ?_ hxund
      omega
    | obj fs =>
      show noUndefFields (sanitizeFields fs) = true
      apply noUndefFields_sanitizeFields
      intro kv hkv hkvund
      have h1 := List.sizeOf_lt_of_mem hkv
      have h2 : sizeOf (JsValue.obj fs) = 1 + sizeOf fs := by simp
      have h3 : sizeOf kv = 1 + sizeOf kv.1 + sizeOf kv.2 := by
        obtain ⟨k, v⟩ := kv
        simp
      apply ih kv.2 ?_ hkvund
      omega

/-- Counterexample to C4 as stated over every input value: applied to the bare
undefined sentinel itself, sanitizeForFirestore returns it unchanged, so the
output still contains undefined. -/
theorem sanitizeForFirestore_undef_counterexample :
    sanitizeForFirestore JsValue.undef = JsValue.undef
    ∧ noUndef (sanitizeForFirestore JsValue.undef) = false :=
  ⟨rfl, rfl⟩

/-- Claim C4 (amended): for every input value other than the bare undefined
sentinel itself, sanitizeForFirestore produces a value containing no
undefined anywhere (undefined entries dropped from arrays, undefined-valued
keys dropped from objects, recursively); explicit null is preserved
unchanged, both at top level and as a kept object value. -/
theorem sanitizeForFirestore_no_undef (v : JsValue) (h : v.isUndef = false) :
    noUndef (sanitizeForFirestore v) = true
    ∧ sanitizeForFirestore JsValue.null = JsValue.null
    ∧ (∀ (k : String) (fs : List (String × JsValue)),
        sanitizeForFirestore (JsValue.obj ((k, JsValue.null) :: fs))
          = JsValue.obj ((k, JsValue.null) :: sanitizeFields fs)) :=
  ⟨noUndef_sanitize_aux (sizeOf v) v le_rfl h, rfl, fun k fs => by
    simp [sanitizeForFirestore, sanitizeFields, JsValue.isUndef]⟩

def jsDocW : JsValue :=
  JsValue.obj
    [ (("caption"), JsValue.str ("hi"))
    , (("confidence"), JsValue.undef)
    , (("detectedFaces"), JsValue.arr [JsValue.undef, JsValue.null, JsValue.number 3]) ]

/-- Witness for C4 (amended) at a concrete document value. -/
theorem sanitizeForFirestore_no_undef_witness :
    noUndef (sanitizeForFirestore jsDocW) = true :=
  (sanitizeForFirestore_no_undef jsDocW rfl).1

/-! ## Claim C6: media normalizer identity on supported formats
(convertToJpegIfNeeded in src/components/CountryPanel.tsx) -/

structure UploadFile where
  name : String
  type : String
  data : List Nat
deriving DecidableEq

/-- Result of convertToJpegIfNeeded: either the input file returned as-is, or
entry into the browser-dependent HEIC/WebP conversion pipeline (canvas and
heic2any effects, not modelled further; no claim concerns that branch). -/
inductive ConvertResult where
  | original (f : UploadFile) : ConvertResult
  | converted : ConvertResult
deriving DecidableEq

/-- The format dispatch of convertToJpegIfNeeded: lower-cased MIME type and
file name decide WebP/HEIC/HEIF; anything else is returned unchanged. -/
def convertToJpegIfNeeded (file : UploadFile) : ConvertResult :=
  let nm := jsToLower file.name
  let ty := jsToLower file.type
  let isWebp := ty == "image/webp" || jsEndsWith nm (".webp")
  let isHeic := ty == "image/heic" || ty == "image/heif"
      || jsEndsWith nm (".heic") || jsEndsWith nm (".heif")
  if !isWebp && !isHeic then ConvertResult.original file else ConvertResult.converted

/-- Claim C6: for every uploaded file that is neither WebP nor HEIC/HEIF by
MIME type or filename extension, convertToJpegIfNeeded returns the input file
unchanged. -/
theorem convertToJpegIfNeeded_identity (file : UploadFile)
    (hw1 : jsToLower file.type ≠ "image/webp")
    (hw2 : jsEndsWith (jsToLower file.name) (".webp") = false)
    (hh1 : jsToLower file.type ≠ "image/heic")
    (hh2 : jsToLower file.type ≠ "image/heif")
    (hh3 : jsEndsWith (jsToLower file.name) (".heic") = false)
    (hh4 : jsEndsWith (jsToLower file.name) (".heif") = false) :
    convertToJpegIfNeeded file = ConvertResult.original file := by
  simp [convertToJpegIfNeeded, hw1, hw2, hh1, hh2, hh3, hh4]

def jpegFileW : UploadFile := ⟨"Holiday.JPG", "image/jpeg", [255, 216, 255]⟩

/-- Witness for C6: a JPEG file passes through unchanged. -/
theorem convertToJpegIfNeeded_identity_witness :
    convertToJpegIfNeeded jpegFileW = ConvertResult.original jpegFileW :=
  convertToJpegIfNeeded_identity jpegFileW (by decide) (by decide) (by decide)
    (by decide) (by decide) (by decide)

/-! ## Claim C7: removing a tagged person
(removePerson in src/components/CountryPanel.tsx) -/

/-- removePerson from src/components/CountryPanel.tsx, as the pure
transformation of the photo it persists: the FaceTag entries for the member
are filtered out, and every DetectedFace assigned to that member has its
assignment fields removed (the destructuring `{ assignedMemberId,
assignedMemberName, ...rest }` drops both keys).  When the photo has no
detected faces the detectedFaces write is skipped, leaving the field as it
was. -/
def removePerson (photo : StoredPhoto) (memberId : String) : StoredPhoto :=
  let next := photo.faceTags.filter (fun t => t.memberId != memberId)
  let dfs := (photo.detectedFaces.getD []).map (fun df =>
    if df.assignedMemberId = some memberId
    then { df with assignedMemberId := none, assignedMemberName := none }
    else df)
  { photo with
    faceTags := next
  , detectedFaces := if dfs.length > 0 then some dfs else photo.detectedFaces }

theorem removePerson_detectedFaces_eq (photo : StoredPhoto) (memberId : String) :
    (removePerson photo memberId).detectedFaces.getD []
      = (photo.detectedFaces.getD []).map (fun df =>
          if df.assignedMemberId = some memberId
          then { df with assignedMemberId := none, assignedMemberName := none }
          else df) := by
  simp only [removePerson]
  split
  · rfl
  · rename_i hlen
    cases hdf : photo.detectedFaces with
    | none => simp
    | some l =>
      rw [hdf] at hlen
      simp only [Option.getD_some, List.length_map, gt_iff_lt, not_lt,
        Nat.le_zero] at hlen
      have : l = [] := List.eq_nil_of_length_eq_zero hlen
      subst this
      simp

/-- Claim C7: removePerson removes exactly the FaceTag entries carrying the
member id (every other tag is kept), preserves the number of detected faces,
and pointwise clears the assignment fields of exactly the detected faces
assigned to that member, leaving every other detected face unchanged. -/
theorem removePerson_clears (photo : StoredPhoto) (memberId : String) :
    (∀ t : FaceTag, t ∈ (removePerson photo memberId).faceTags
        ↔ (t ∈ photo.faceTags ∧ t.memberId ≠ memberId))
    ∧ ((removePerson photo memberId).detectedFaces.getD []).length
        = (photo.detectedFaces.getD []).length
    ∧ (∀ (i : Nat) (h1 : i < (photo.detectedFaces.getD []).length)
        (h2 : i < ((removePerson photo memberId).detectedFaces.getD []).length),
        (((photo.detectedFaces.getD []).get ⟨i, h1⟩).assignedMemberId = some memberId →
          ((removePerson photo memberId).detectedFaces.getD []).get ⟨i, h2⟩
            = { (photo.detectedFaces.getD []).get ⟨i, h1⟩ with
                assignedMemberId := none, assignedMemberName := none })
        ∧ (((photo.detectedFaces.getD []).get ⟨i, h1⟩).assignedMemberId ≠ some memberId →
          ((removePerson photo memberId).detectedFaces.getD []).get ⟨i, h2⟩
            = (photo.detectedFaces.getD []).get ⟨i, h1⟩)) := by
  refine ⟨fun t => ?_, ?_, fun i h1 h2 => ?_⟩
  · simp only [removePerson]
    rw [List.mem_filter]
    simp [bne_iff_ne]
  · rw [removePerson_detectedFaces_eq, List.length_map]
  · constructor
    · intro hassign
      rw [List.get_eq_getElem] at hassign
      rw [List.get_eq_getElem, List.get_eq_getElem]
      simp only [removePerson_detectedFaces_eq, List.getElem_map]
      simp [hassign]
    · intro hassign
      rw [List.get_eq_getElem] at hassign
      rw [List.get_eq_getElem, List.get_eq_getElem]
      simp only [removePerson_detectedFaces_eq, List.getElem_map]
      simp [hassign]

def faceW1 : DetectedFaceData :=
  ⟨"f1", "thumb1", ⟨0, 0, 1, 1⟩, some [1, 2], some ("m1"), some ("Ann"), none, none, none⟩

def faceW2 : DetectedFaceData :=
  ⟨"f2", "thumb2", ⟨2, 2, 1, 1⟩, some [3, 4], some ("m2"), some ("Bob"), none, none, none⟩

def tagW1 : FaceTag := ⟨"m1", "Ann", ⟨0, 0, 1, 1⟩, none⟩

def tagW2 : FaceTag := ⟨"m2", "Bob", ⟨2, 2, 1, 1⟩, none⟩

def photoW : StoredPhoto :=
  ⟨"p1", "FR", "url1", "p1.jpg", "", [tagW1, tagW2], some [faceW1, faceW2], 3⟩

/-- Witness for C7: on a concrete photo, the tag of the other member survives
removal, and the face count is preserved. -/
theorem removePerson_clears_witness :
    tagW2 ∈ (removePerson photoW ("m1")).faceTags
    ∧ ((removePerson photoW ("m1")).detectedFaces.getD []).length
        = ((photoW.detectedFaces).getD []).length :=
  ⟨((removePerson_clears photoW ("m1")).1 tagW2).mpr (by decide),
    (removePerson_clears photoW ("m1")).2.1⟩

/-! ## Storage world and failure injection (src/lib/storage.ts,
src/lib/faceRecognition.ts) -/

/-- FamilyMember from src/lib/faceRecognition.ts.  Stored descriptors are
JSON strings of 128-number arrays; they are represented here by the decoded
number lists (the JSON codec is a bijection on well-formed payloads).  The
two legacy formats are the optional fields. -/
structure FamilyMember where
  id : String
  name : String
  descriptorStrings : List (List ℚ)
  photoUrls : List String
  createdAt : Int
  descriptor : Option (List ℚ)
  descriptors : Option (List (List ℚ))
  photoUrl : Option String
deriving DecidableEq

/-- The persisted cloud state: blob keys in the object store, photo
documents, the trips config document, and family-member documents. -/
structure StorageWorld where
  blobs : List String
  photoDocs : List StoredPhoto
  tripsDoc : Option TripsJson
  familyDocs : List FamilyMember
deriving DecidableEq

/-- Which underlying client calls throw; each read/write path of the source
wraps its calls in try/catch, so failures are injected as flags. -/
structure FailureEnv where
  deleteObjectFails : Bool
  deleteDocFails : Bool
  tripsReadFails : Bool
  familyReadFails : Bool
  photosQueryFails : Bool
  allPhotosReadFails : Bool
deriving DecidableEq

/-- getTripsData from src/lib/storage.ts: returns the config document, or
null when it does not exist, or null when the read throws (error swallowed). -/
def getTripsData (env : FailureEnv) (w : StorageWorld) : Option TripsJson :=
  if env.tripsReadFails then none else w.tripsDoc

/-- getFamilyMembers from src/lib/faceRecognition.ts: all documents sorted by
name, or the empty list when the read throws (error swallowed). -/
def getFamilyMembers (env : FailureEnv) (w : StorageWorld) : List FamilyMember :=
  if env.familyReadFails then []
  else insertionSortBy (fun a b => strLe a.name b.name) w.familyDocs

/-- getPhotosForCountry from src/lib/storage.ts: the country's photo
documents sorted by creation time ascending, or the empty list when the
query throws (error swallowed). -/
def getPhotosForCountry (env : FailureEnv) (w : StorageWorld) (countryIso : String) :
    List StoredPhoto :=
  if env.photosQueryFails then []
  else insertionSortBy (fun a b => decide (a.createdAt ≤ b.createdAt))
    (w.photoDocs.filter (fun p => p.countryIso == countryIso))

/-- getAllPhotos from src/lib/storage.ts: every photo document, or the empty
list when the read throws (error swallowed). -/
def getAllPhotos (env : FailureEnv) (w : StorageWorld) : List StoredPhoto :=
  if env.allPhotosReadFails then [] else w.photoDocs

/-- deletePhoto from src/lib/storage.ts: first delete the blob
`photos/{photoId}` from the object store, then delete the Firestore
document; a thrown error is logged and re-raised (second component), and no
compensation of the other step happens. -/
def deletePhoto (env : FailureEnv) (w : StorageWorld) (photoId : String) :
    StorageWorld × Option String :=
  if env.deleteObjectFails then (w, some ("delete-object-failed"))
  else
    let w1 := { w with blobs := w.blobs.filter (fun b => b != "photos/" ++ photoId) }
    if env.deleteDocFails then (w1, some ("delete-doc-failed"))
    else ({ w1 with photoDocs := w1.photoDocs.filter (fun p => p.id != photoId) }, none)

/-! ## Claim C8: deletePhoto ordering, error surfacing, and effect -/

/-- Claim C8: deletePhoto deletes the blob first and the metadata document
second; if the blob deletion throws, the error is surfaced and the metadata
document (and everything else) is untouched; if the document deletion throws,
the error is surfaced and the already-deleted blob is not restored; after a
fully successful deletion the photo no longer appears in any
getPhotosForCountry result. -/
theorem deletePhoto_order_and_errors (env : FailureEnv) (w : StorageWorld) (photoId : String) :
    (env.deleteObjectFails = true →
      deletePhoto env w photoId = (w, some ("delete-object-failed")))
    ∧ (env.deleteObjectFails = false → env.deleteDocFails = true →
        (deletePhoto env w photoId).2.isSome = true
        ∧ (deletePhoto env w photoId).1.photoDocs = w.photoDocs
        ∧ (deletePhoto env w photoId).1.blobs
            = w.blobs.filter (fun b => b != "photos/" ++ photoId))
    ∧ (env.deleteObjectFails = false → env.deleteDocFails = false →
        (deletePhoto env w photoId).2 = none
        ∧ ∀ (env2 : FailureEnv) (iso : String) (p : StoredPhoto),
            p ∈ getPhotosForCountry env2 (deletePhoto env w photoId).1 iso →
            p.id ≠ photoId) := by
  refine ⟨fun h1 => ?_, fun h1 h2 => ?_, fun h1 h2 => ?_⟩
  · simp [deletePhoto, h1]
  · refine ⟨?_, ?_, ?_⟩ <;> simp [deletePhoto, h1, h2]
  · refine ⟨by simp [deletePhoto, h1, h2], ?_⟩
    intro env2 iso p hp
    simp only [getPhotosForCountry] at hp
    by_cases hq : env2.photosQueryFails
    · simp [hq] at hp
    · rw [if_neg hq, mem_insertionSortBy, List.mem_filter] at hp
      have hp2 := hp.1
      simp only [deletePhoto, h1, h2] at hp2
      simp only [Bool.if_false_left, if_false, Bool.false_eq_true] at hp2
      rw [List.mem_filter] at hp2
      have := hp2.2
      simpa [bne_iff_ne] using this

def worldW : StorageWorld :=
  ⟨["photos/p1", "photos/p2"], [photoW, photoA], none, []⟩

def envOkW : FailureEnv := ⟨false, false, false, false, false, false⟩

/-- Witness for C8: after successfully deleting photo p1 from a concrete
world, no photo returned for its country carries its id, and no error is
surfaced. -/
theorem deletePhoto_order_and_errors_witness :
    (deletePhoto envOkW worldW ("p1")).2 = none
    ∧ (∀ p ∈ getPhotosForCountry envOkW (deletePhoto envOkW worldW ("p1")).1 ("FR"),
        p.id ≠ "p1") :=
  ⟨((deletePhoto_order_and_errors envOkW worldW ("p1")).2.2 (by decide) (by decide)).1,
    fun p hp =>
      ((deletePhoto_order_and_errors envOkW worldW ("p1")).2.2 (by decide) (by decide)).2
        envOkW ("FR") p hp⟩

/-! ## Claim C10: read operations swallow storage errors -/

/-- Claim C10: every read operation swallows underlying storage errors: on a
read failure getTripsData returns null and getFamilyMembers,
getPhotosForCountry and getAllPhotos return the empty list — exactly the
results a successful read of an empty store produces, so a caller cannot
distinguish absent data from a failed read. -/
theorem readPaths_swallow_errors (env : FailureEnv) (w : StorageWorld) (iso : String) :
    (env.tripsReadFails = true → getTripsData env w = none)
    ∧ (env.familyReadFails = true → getFamilyMembers env w = [])
    ∧ (env.photosQueryFails = true → getPhotosForCountry env w iso = [])
    ∧ (env.allPhotosReadFails = true → getAllPhotos env w = [])
    ∧ getTripsData envOkW ⟨[], [], none, []⟩ = none
    ∧ getFamilyMembers envOkW ⟨[], [], none, []⟩ = []
    ∧ getPhotosForCountry envOkW ⟨[], [], none, []⟩ iso = []
    ∧ getAllPhotos envOkW ⟨[], [], none, []⟩ = [] := by
  refine ⟨fun h => ?_, fun h => ?_, fun h => ?_, fun h => ?_, ?_, ?_, ?_, ?_⟩ <;>
    simp [getTripsData, getFamilyMembers, getPhotosForCountry, getAllPhotos,
      envOkW, insertionSortBy, *]

def envFailW : FailureEnv := ⟨false, false, true, true, true, true⟩

/-- Witness for C10: with every read failing against a populated world, all
four read operations return the empty result. -/
theorem readPaths_swallow_errors_witness :
    getTripsData envFailW worldW = none
    ∧ getFamilyMembers envFailW worldW = []
    ∧ getPhotosForCountry envFailW worldW ("FR") = []
    ∧ getAllPhotos envFailW worldW = [] :=
  ⟨(readPaths_swallow_errors envFailW worldW ("FR")).1 (by decide),
    (readPaths_swallow_errors envFailW worldW ("FR")).2.1 (by decide),
    (readPaths_swallow_errors envFailW worldW ("FR")).2.2.1 (by decide),
    (readPaths_swallow_errors envFailW worldW ("FR")).2.2.2.1 (by decide)⟩

/-! ## Face recognition (src/lib/faceRecognition.ts) -/

/-- getMemberDescriptors from src/lib/faceRecognition.ts: prefer the new
JSON-string format, then the legacy nested-array format, then the oldest
single-descriptor format (note the JavaScript truthiness of `member.descriptor`
keeps an empty array too). -/
def getMemberDescriptors (member : FamilyMember) : List (List ℚ) :=
  if member.descriptorStrings.length > 0 then member.descriptorStrings
  else if (member.descriptors.getD []).length > 0 then member.descriptors.getD []
  else
    match member.descriptor with
    | some d => [d]
    | none => []

structure TrainingDescriptor where
  memberId : String
  descriptor : List ℚ
deriving DecidableEq

/-- The per-face extraction step of getTrainingDescriptorsFromTaggedPhotos:
skip faces without an assignment or without a parsable descriptor string
(`!memberId` is also true for the empty string). -/
def trainExtract (f : DetectedFaceData) : Option TrainingDescriptor :=
  match f.assignedMemberId, f.descriptorString with
  | some mid, some ds => if mid == "" then none else some ⟨mid, ds⟩
  | _, _ => none

/-- getTrainingDescriptorsFromTaggedPhotos from src/lib/faceRecognition.ts,
over an explicit photo list (the getAllPhotos read; its catch-all returns the
empty list, covered by passing []). -/
def getTrainingDescriptorsFromTaggedPhotos (photos : List StoredPhoto) :
    List TrainingDescriptor :=
  photos.flatMap (fun p => (p.detectedFaces.getD []).filterMap trainExtract)

/-- One step of the `byMember` Map construction in matchFaces: push the
descriptor onto the member's list, creating the entry on first sight
(JavaScript Map iteration preserves insertion order per key). -/
def byMemberStep (acc : List (String × List (List ℚ))) (t : TrainingDescriptor) :
    List (String × List (List ℚ)) :=
  if acc.any (fun e => e.1 == t.memberId)
  then acc.map (fun e => if e.1 == t.memberId then (e.1, e.2 ++ [t.descriptor]) else e)
  else acc ++ [(t.memberId, [t.descriptor])]

def buildByMember (training : List TrainingDescriptor) : List (String × List (List ℚ)) :=
  training.foldl byMemberStep []

/-- The `byMember.get(member.id) || []` lookup on the association list. -/
def lookupByMember : List (String × List (List ℚ)) → String → List (List ℚ)
  | [], _ => []
  | e :: rest, id => if e.1 == id then e.2 else lookupByMember rest id

structure LabeledFaceDescriptors where
  label : String
  descriptors : List (List ℚ)
deriving DecidableEq

/-- The labeled-descriptor construction inside matchFaces: per member, prefer
the tagged-photo training descriptors, fall back to the member's own stored
descriptors, and drop members with no descriptors at all. -/
def labeledDescriptorsOf (members : List FamilyMember) (training : List TrainingDescriptor) :
    List LabeledFaceDescriptors :=
  (members.map (fun member =>
    let fromPhotos := lookupByMember (buildByMember training) member.id
    let fallback := getMemberDescriptors member
    LabeledFaceDescriptors.mk member.id
      (if fromPhotos.length > 0 then fromPhotos else fallback))).filter
    (fun ld => ld.descriptors.length > 0)

/-- MATCH_THRESHOLD from src/lib/faceRecognition.ts. -/
def MATCH_THRESHOLD : ℚ := 0.55

/-- Squared euclidean distance between two descriptors. -/
def distSq (a b : List ℚ) : ℚ := ((a.zip b).map (fun p => (p.1 - p.2) ^ 2)).sum

/-- Distance of a query to the closest reference descriptor of one label,
squared; the reference sets handed over are nonempty by construction, the
empty-set default 1 exceeds the squared threshold. -/
def minDistSqToSet (ds : List (List ℚ)) (q : List ℚ) : ℚ :=
  match ds with
  | [] => 1
  | d :: rest => rest.foldl (fun acc x => min acc (distSq x q)) (distSq d q)

/-- A face-api match result; the distance is carried squared so that the
model stays computable, and exposed as its real square root. -/
structure FaceMatch where
  label : String
  distanceSq : ℚ

noncomputable def FaceMatch.distance (m : FaceMatch) : ℝ :=
  Real.sqrt ((m.distanceSq : ℚ) : ℝ)

/-- Modelled from the spec of the external face-api matcher (the library is
not part of this repository): nearest label by euclidean distance to its
closest reference descriptor.  Comparing squared distances selects the same
label as comparing distances, since squaring is strictly monotone on
nonnegatives. -/
def bestLabelMatch (lds : List LabeledFaceDescriptors) (q : List ℚ) : FaceMatch :=
  match lds with
  | [] => ⟨"unknown", 1⟩
  | ld :: rest =>
    rest.foldl (fun acc ld2 =>
      let d2 := minDistSqToSet ld2.descriptors q
      if d2 < acc.distanceSq then ⟨ld2.label, d2⟩ else acc)
      ⟨ld.label, minDistSqToSet ld.descriptors q⟩

/-- Modelled from the spec: the matcher reports the best label when its
distance is within the acceptance threshold (distance ≤ 0.55, compared here
as distanceSq ≤ 0.55²) and the reserved label otherwise. -/
def findBestMatch (lds : List LabeledFaceDescriptors) (q : List ℚ) : FaceMatch :=
  let best := bestLabelMatch lds q
  if best.distanceSq ≤ MATCH_THRESHOLD ^ 2 then best else ⟨"unknown", best.distanceSq⟩

/-- DetectedFace from src/lib/faceRecognition.ts. -/
structure DetectedFace where
  descriptor : List ℚ
  box : Box
  matchedMember : Option FamilyMember
  confidence : Option ℝ

/-- matchFaces from src/lib/faceRecognition.ts, with the two asynchronous
reads (family members, tagged-photo training descriptors) passed as
arguments: return the faces unchanged when there are no members or no
labeled descriptors; otherwise annotate each face whose best match is not
the reserved label with the matched member and confidence 1 − distance. -/
noncomputable def matchFaces (familyMembers : List FamilyMember)
    (training : List TrainingDescriptor) (detectedFaces : List DetectedFace) :
    List DetectedFace :=
  if familyMembers.length = 0 then detectedFaces
  else
    let labeledDescriptors := labeledDescriptorsOf familyMembers training
    if labeledDescriptors.length = 0 then detectedFaces
    else
      detectedFaces.map (fun face =>
        let m := findBestMatch labeledDescriptors face.descriptor
        if m.label ≠ "unknown" then
          { face with
            matchedMember := familyMembers.find? (fun fm => fm.id == m.label)
          , confidence := some (1 - m.distance) }
        else face)

theorem distSq_self (d : List ℚ) : distSq d d = 0 := by
  induction d with
  | nil => rfl
  | cons a t ih =>
    simp only [distSq, List.zip_cons_cons, List.map_cons, List.sum_cons] at ih ⊢
    simp [ih]

/-! ## Claim C1: exact-descriptor match has confidence exactly 1 -/

/-- Claim C1: matching a detected face whose descriptor equals the single
reference descriptor of the only family member (with no tagged-photo
training descriptors present) returns that face with matchedMember set to
that member and confidence exactly 1 (distance 0, within the 0.55
threshold).  The side condition excludes the reserved label, which no
generated member id ever carries. -/
theorem matchFaces_exact_descriptor (d : List ℚ) (b : Box) (mm0 : Option FamilyMember)
    (c0 : Option ℝ) (member : FamilyMember)
    (href : getMemberDescriptors member = [d]) (hunk : member.id ≠ "unknown") :
    matchFaces [member] [] [⟨d, b, mm0, c0⟩] = [⟨d, b, some member, some 1⟩] := by
  have hlds : labeledDescriptorsOf [member] [] = [⟨member.id, [d]⟩] := by
    simp [labeledDescriptorsOf, buildByMember, lookupByMember, href]
  have hmin : minDistSqToSet [d] d = 0 := by
    simp [minDistSqToSet, distSq_self]
  have hbest : findBestMatch [⟨member.id, [d]⟩] d = ⟨member.id, 0⟩ := by
    simp only [findBestMatch, bestLabelMatch, List.foldl_nil, hmin]
    rw [if_pos]
    rw [MATCH_THRESHOLD]
    norm_num
  have hdist : FaceMatch.distance ⟨member.id, 0⟩ = 0 := by
    simp [FaceMatch.distance]
  simp only [matchFaces, List.length_cons, List.length_nil, hlds]
  simp [hunk, hdist]
  simp only [hbest]
  simp [hunk, hdist]

def memberW1 : FamilyMember := ⟨"family-1", "Ann", [[1, 2]], [], 0, none, none, none⟩

/-- Witness for C1: a concrete member whose single stored descriptor equals
the detected face's descriptor is matched with confidence exactly 1. -/
theorem matchFaces_exact_descriptor_witness :
    matchFaces [memberW1] [] [⟨[1, 2], ⟨0, 0, 1, 1⟩, none, none⟩]
      = [⟨[1, 2], ⟨0, 0, 1, 1⟩, some memberW1, some 1⟩] :=
  matchFaces_exact_descriptor [1, 2] ⟨0, 0, 1, 1⟩ none none memberW1 rfl (by decide)

/-! ## Claim C2: reference-set selection in matchFaces -/


theorem lookup_map_upd (mid : String) (d : List ℚ) (id : String)
    (acc : List (String × List (List ℚ))) :
    lookupByMember (acc.map (fun e => if e.1 == mid then (e.1, e.2 ++ [d]) else e)) id
      = lookupByMember acc id
        ++ (if (mid == id) && acc.any (fun e => e.1 == id) then [d] else []) := by
  induction acc with
  | nil => simp [lookupByMember]
  | cons e rest ih =>
    have hkey : ((if e.1 == mid then (e.1, e.2 ++ [d]) else e) :
        String × List (List ℚ)).1 = e.1 := by
      by_cases hm : (e.1 == mid) = true <;> simp [hm]
    simp only [List.map_cons, lookupByMember, List.any_cons, hkey]
    by_cases he : (e.1 == id) = true
    · have he2 : e.1 = id := by simpa using he
      by_cases hm : (mid == id) = true
      · have hm2 : mid = id := by simpa using hm
        have hem : (e.1 == mid) = true := by simp [he2, hm2]
        simp [hem, he, hm]
      · have hmf : (mid == id) = false := Bool.eq_false_iff.mpr hm
        have hne : mid ≠ id := by simpa using hmf
        have hem : (e.1 == mid) = false := by
          rw [he2]
          exact beq_eq_false_iff_ne.mpr (fun hh => hne hh.symm)
        simp [hem, he, hmf]
    · have hef : (e.1 == id) = false := Bool.eq_false_iff.mpr he
      simp only [hef, Bool.false_eq_true, if_false, Bool.false_or]
      exact ih

theorem lookup_append_new (acc : List (String × List (List ℚ))) (mid : String)
    (d : List ℚ) (id : String) :
    lookupByMember (acc ++ [(mid, [d])]) id
      = lookupByMember acc id
        ++ (if (mid == id) && !(acc.any (fun e => e.1 == id)) then [d] else []) := by
  induction acc with
  | nil =>
    by_cases hm : (mid == id) = true <;> simp [lookupByMember, hm]
  | cons e rest ih =>
    simp only [List.cons_append, lookupByMember, List.any_cons]
    by_cases he : (e.1 == id) = true
    · simp [he]
    · have hef : (e.1 == id) = false := Bool.eq_false_iff.mpr he
      simp only [hef, Bool.false_eq_true, if_false, Bool.false_or]
      exact ih

theorem lookupByMember_byMemberStep (acc : List (String × List (List ℚ)))
    (t : TrainingDescriptor) (id : String) :
    lookupByMember (byMemberStep acc t) id
      = lookupByMember acc id ++ (if t.memberId == id then [t.descriptor] else []) := by
  by_cases hany : (acc.any (fun e => e.1 == t.memberId)) = true
  · rw [byMemberStep, if_pos hany, lookup_map_upd]
    by_cases hmid : (t.memberId == id) = true
    · have hid_eq : t.memberId = id := by simpa using hmid
      subst hid_eq
      simp [hmid, hany]
    · have hmf : (t.memberId == id) = false := Bool.eq_false_iff.mpr hmid
      simp [hmf]
  · have hanyf : (acc.any (fun e => e.1 == t.memberId)) = false :=
      Bool.eq_false_iff.mpr hany
    rw [byMemberStep, if_neg hany, lookup_append_new]
    by_cases hmid : (t.memberId == id) = true
    · have hid_eq : t.memberId = id := by simpa using hmid
      subst hid_eq
      simp [hmid, hanyf]
    · have hmf : (t.memberId == id) = false := Bool.eq_false_iff.mpr hmid
      simp [hmf]

theorem lookupByMember_foldl (training : List TrainingDescriptor)
    (acc : List (String × List (List ℚ))) (id : String) :
    lookupByMember (training.foldl byMemberStep acc) id
      = lookupByMember acc id
        ++ (training.filter (fun t => t.memberId == id)).map (fun t => t.descriptor) := by
  induction training generalizing acc with
  | nil => simp
  | cons t tr ih =>
    rw [List.foldl_cons, ih, lookupByMember_byMemberStep, List.filter_cons]
    by_cases h : (t.memberId == id) = true <;>
      simp [h, List.append_assoc]

/-- The Map built from the training list, looked up at a member id, yields
exactly the training descriptors recorded for that id, in order. -/
theorem lookupByMember_buildByMember (training : List TrainingDescriptor) (id : String) :
    lookupByMember (buildByMember training) id
      = (training.filter (fun t => t.memberId == id)).map (fun t => t.descriptor) := by
  have h := lookupByMember_foldl training [] id
  rw [buildByMember, h]
  simp [lookupByMember]

/-- The reference set claim C2 describes for one member: tagged-photo
training descriptors when at least one exists, otherwise the member's own
stored descriptors. -/
def referenceSetFor (training : List TrainingDescriptor) (m : FamilyMember) :
    List (List ℚ) :=
  let tagged := (training.filter (fun t => t.memberId == m.id)).map (fun t => t.descriptor)
  if tagged.length > 0 then tagged else getMemberDescriptors m

theorem labeledEntry_eq (training : List TrainingDescriptor) :
    (fun member : FamilyMember =>
      let fromPhotos := lookupByMember (buildByMember training) member.id
      let fallback := getMemberDescriptors member
      LabeledFaceDescriptors.mk member.id
        (if fromPhotos.length > 0 then fromPhotos else fallback))
      = fun member =>
          LabeledFaceDescriptors.mk member.id (referenceSetFor training member) := by
  funext member
  simp only [referenceSetFor, lookupByMember_buildByMember]

theorem labeledDescriptorsOf_eq (members : List FamilyMember)
    (training : List TrainingDescriptor) :
    labeledDescriptorsOf members training
      = (members.map (fun member =>
          LabeledFaceDescriptors.mk member.id (referenceSetFor training member))).filter
          (fun ld => ld.descriptors.length > 0) := by
  unfold labeledDescriptorsOf
  rw [labeledEntry_eq]

theorem labeledDescriptorsOf_cons (m2 : FamilyMember) (rest : List FamilyMember)
    (training : List TrainingDescriptor) :
    labeledDescriptorsOf (m2 :: rest) training
      = (if (referenceSetFor training m2).length > 0
         then [⟨m2.id, referenceSetFor training m2⟩] else [])
        ++ labeledDescriptorsOf rest training := by
  rw [labeledDescriptorsOf_eq, labeledDescriptorsOf_eq, List.map_cons, List.filter_cons]
  by_cases hq : (referenceSetFor training m2).length > 0
  · rw [if_pos (decide_eq_true hq), if_pos hq]
    rfl
  · rw [if_neg (fun hh => hq (of_decide_eq_true hh)), if_neg hq]
    simp

theorem labeledDescriptorsOf_filter_label (members : List FamilyMember)
    (training : List TrainingDescriptor) (m : FamilyMember)
    (hid : ∀ m2 ∈ members, m2.id = m.id → m2 = m) (hnd : members.Nodup) :
    (labeledDescriptorsOf members training).filter (fun ld => ld.label == m.id)
      = if m ∈ members ∧ (referenceSetFor training m).length > 0
        then [⟨m.id, referenceSetFor training m⟩] else [] := by
  induction members with
  | nil => simp [labeledDescriptorsOf]
  | cons m2 rest ih =>
    have hidr : ∀ m3 ∈ rest, m3.id = m.id → m3 = m :=
      fun m3 h3 => hid m3 (List.mem_cons_of_mem m2 h3)
    have hndr : rest.Nodup := hnd.of_cons
    rw [labeledDescriptorsOf_cons, List.filter_append, ih hidr hndr]
    by_cases hm2 : m2.id = m.id
    · have hm2eq : m2 = m := hid m2 (List.mem_cons_self m2 rest) hm2
      subst hm2eq
      have hnotin : m2 ∉ rest := (List.nodup_cons.mp hnd).1
      have htail : (m2 ∈ rest ∧ (referenceSetFor training m2).length > 0) = False := by
        simp [hnotin]
      by_cases hq : (referenceSetFor training m2).length > 0 <;>
        simp [hq, htail, hnotin, List.filter_cons]
    · have hlab : ((⟨m2.id, referenceSetFor training m2⟩ :
          LabeledFaceDescriptors).label == m.id) = false :=
        beq_eq_false_iff_ne.mpr hm2
      have hmm2 : m ≠ m2 := fun hh => hm2 (by rw [hh])
      by_cases hq : (referenceSetFor training m2).length > 0 <;>
        simp [hq, List.filter_cons, hlab, List.mem_cons, hmm2]

/-- The tagged-photo training descriptors for one member id, read directly
off the stored photos: one descriptor per stored DetectedFace assigned to
that member with a parsable descriptor string. -/
def taggedDescriptorsFor (photos : List StoredPhoto) (memberId : String) :
    List (List ℚ) :=
  photos.flatMap (fun p => (p.detectedFaces.getD []).filterMap (fun f =>
    match f.assignedMemberId, f.descriptorString with
    | some mid, some ds => if mid == memberId then some ds else none
    | _, _ => none))

theorem trainingFaces_filter (faces : List DetectedFaceData) (id : String) (hid : id ≠ "") :
    ((faces.filterMap trainExtract).filter (fun t => t.memberId == id)).map
        (fun t => t.descriptor)
      = faces.filterMap (fun f =>
          match f.assignedMemberId, f.descriptorString with
          | some mid, some ds => if mid == id then some ds else none
          | _, _ => none) := by
  induction faces with
  | nil => rfl
  | cons f rest ih =>
    rw [List.filterMap_cons, List.filterMap_cons]
    cases hA : f.assignedMemberId with
    | none => simpa [trainExtract, hA] using ih
    | some mid =>
      cases hD : f.descriptorString with
      | none => simpa [trainExtract, hA, hD] using ih
      | some ds =>
        by_cases hmid : (mid == "") = true
        · have hmide : mid = "" := by simpa using hmid
          subst hmide
          have hmi : (("" : String) == id) = false :=
            beq_eq_false_iff_ne.mpr (fun hh => hid hh.symm)
          simp [trainExtract, hA, hD, hmi, ih]
        · have hm0 : (mid == "") = false := Bool.eq_false_iff.mpr hmid
          by_cases heq : (mid == id) = true
          · simp [trainExtract, hA, hD, hm0, heq, List.filter_cons, ih]
          · have heqf : (mid == id) = false := Bool.eq_false_iff.mpr heq
            simp [trainExtract, hA, hD, hm0, heqf, List.filter_cons, ih]

theorem getTraining_filter_eq_tagged (photos : List StoredPhoto) (id : String)
    (hid : id ≠ "") :
    ((getTrainingDescriptorsFromTaggedPhotos photos).filter
        (fun t => t.memberId == id)).map (fun t => t.descriptor)
      = taggedDescriptorsFor photos id := by
  induction photos with
  | nil => rfl
  | cons p rest ih =>
    have hstep : getTrainingDescriptorsFromTaggedPhotos (p :: rest)
        = (p.detectedFaces.getD []).filterMap trainExtract
          ++ getTrainingDescriptorsFromTaggedPhotos rest := by
      simp [getTrainingDescriptorsFromTaggedPhotos]
    have hstep2 : taggedDescriptorsFor (p :: rest) id
        = (p.detectedFaces.getD []).filterMap (fun f =>
            match f.assignedMemberId, f.descriptorString with
            | some mid, some ds => if mid == id then some ds else none
            | _, _ => none)
          ++ taggedDescriptorsFor rest id := by
      simp [taggedDescriptorsFor]
    rw [hstep, List.filter_append, List.map_append, trainingFaces_filter _ id hid, ih, hstep2]

/-- Claim C2: the reference set handed to the library matcher for a member is
exactly that member's tagged-photo training descriptors when at least one
stored DetectedFace is assigned to the member with a parsable descriptor
string, and otherwise exactly the member's own stored descriptors (decoded
from descriptorStrings, descriptors, or descriptor); a member with no
descriptors from either source gets no labeled-descriptor entry at all.
Side conditions: the member belongs to the loaded set, member ids are unique
and nonempty. -/
theorem matchFaces_reference_set_selection (members : List FamilyMember)
    (photos : List StoredPhoto) (m : FamilyMember) (hm : m ∈ members)
    (hid : ∀ m2 ∈ members, m2.id = m.id → m2 = m) (hnd : members.Nodup)
    (hne : m.id ≠ "") :
    (labeledDescriptorsOf members (getTrainingDescriptorsFromTaggedPhotos photos)).filter
        (fun ld => ld.label == m.id)
      = (if (taggedDescriptorsFor photos m.id).length > 0
         then [⟨m.id, taggedDescriptorsFor photos m.id⟩]
         else if (getMemberDescriptors m).length > 0
           then [⟨m.id, getMemberDescriptors m⟩] else []) := by
  rw [labeledDescriptorsOf_filter_label members _ m hid hnd]
  have href : referenceSetFor (getTrainingDescriptorsFromTaggedPhotos photos) m
      = (if (taggedDescriptorsFor photos m.id).length > 0
         then taggedDescriptorsFor photos m.id else getMemberDescriptors m) := by
    simp only [referenceSetFor, getTraining_filter_eq_tagged photos m.id hne]
  rw [href]
  by_cases h1 : (taggedDescriptorsFor photos m.id).length > 0
  · simp [hm, h1]
  · by_cases h2 : (getMemberDescriptors m).length > 0 <;> simp [hm, h1, h2]

def memberW2 : FamilyMember := ⟨"m1", "Ann", [], [], 0, none, none, none⟩

/-- Witness for C2 at a concrete input: one member, one stored photo with a
face assigned to that member. -/
theorem matchFaces_reference_set_selection_witness :
    (labeledDescriptorsOf [memberW2]
        (getTrainingDescriptorsFromTaggedPhotos [photoW])).filter
        (fun ld => ld.label == memberW2.id)
      = (if (taggedDescriptorsFor [photoW] memberW2.id).length > 0
         then [⟨memberW2.id, taggedDescriptorsFor [photoW] memberW2.id⟩]
         else if (getMemberDescriptors memberW2).length > 0
           then [⟨memberW2.id, getMemberDescriptors memberW2⟩] else []) :=
  matchFaces_reference_set_selection [memberW2] [photoW] memberW2 (by decide)
    (by decide) (by decide) (by decide)
